import Mathlib

/-!
# pseudoterm: the scripted-interaction engine and the session driver

A shallow embedding of `pseudoterm.go`:

* `QueueStory` with `Add`, `Setup`, `Cancel`, `Teardown`, `TickHandler`,
  `HandleLine`, `Success`, `shift` and `similar`;
* `Terminal` with `Run`, `Start`, `Stop`, `Watch` and `handleLine`.

Conventions of the embedding.

* A Go `error` interface value is a `GoError`; the nil interface is `GoError.nil`.
* A `time.Duration` is an `Int` (nanoseconds).  A `time.Time` is an `Int`
  (nanoseconds since the zero `time.Time{}`); a reading of `time.Now()` is a
  `Nat`, the clock never being before the zero time.  Overflow of the
  underlying 64-bit fields is outside the model.
* `context.Context` values are references into a store of context objects
  (`Ctxs`), so that the identity of the context handed out by `Setup` is kept.
* A run-time panic is the `Outcome.panic` result; the state returned with it
  is the state at the moment of the panic.
-/

namespace Pseudoterm

/-! ## Errors, durations, times -/

/-- A `time.Duration`, in nanoseconds. -/
abbrev Duration := Int

/-- A `time.Time`, in nanoseconds since the zero value `time.Time{}`. -/
abbrev Time := Int

/-- The zero value `time.Time{}`. -/
def zeroTime : Time := 0

/-- Go `error` values of the package.  `nil` is the nil interface value;
`SkipWrite`, `SkipZeroMatches` and `errAlreadyInitialized` are the package
level variables of the same names; `New text` is any other `errors.New(text)`;
`timedOut read timeout` is the value built by `fmt.Errorf` in `TickHandler`;
`Canceled` and `DeadlineExceeded` are the two errors of package `context`;
`ExecutionError` is the struct of that name. -/
inductive GoError where
  | nil
  | SkipWrite
  | SkipZeroMatches
  | errAlreadyInitialized
  | New (text : String)
  | timedOut (read : String) (timeout : Duration)
  | Canceled
  | DeadlineExceeded
  | ExecutionError (RunError SigtermError : GoError)
  deriving DecidableEq, Repr

/-- Result of a call that may panic. -/
inductive Outcome (α : Type) where
  | ret (v : α)
  | panic
  deriving DecidableEq, Repr

/-! ## strings.TrimSpace -/

/-- Go `unicode.IsSpace`: the Unicode White_Space property. -/
def isSpace (c : Char) : Bool :=
  let n := c.toNat
  (9 ≤ n && n ≤ 13) || n == 32 || n == 0x85 || n == 0xA0 || n == 0x1680 ||
  (0x2000 ≤ n && n ≤ 0x200a) || n == 0x2028 || n == 0x2029 || n == 0x202f ||
  n == 0x205f || n == 0x3000

/-- Go `strings.TrimSpace` on the characters of a string. -/
def trimChars (cs : List Char) : List Char :=
  ((cs.dropWhile isSpace).reverse.dropWhile isSpace).reverse

/-- Go `strings.TrimSpace`. -/
def TrimSpace (s : String) : String := String.mk (trimChars s.data)

/-- The function `similar` of the source. -/
def similar (s ref : String) : Bool :=
  decide (TrimSpace s = TrimSpace ref)

/-! ## context.Context -/

/-- The error a done context reports from `Err()`. -/
inductive CtxErr where
  | Canceled
  | DeadlineExceeded
  deriving DecidableEq, Repr

/-- One context object made by `WithCancel`, `WithTimeout` or `WithDeadline`.
`deadline` is what `Deadline()` reports (its own or the inherited one); `err`
is the error recorded when the object was cancelled, or was already done when
it was made. -/
structure CtxObj where
  deadline : Option Time
  err : Option CtxErr
  deriving DecidableEq, Repr

/-- The context objects allocated so far; a reference is an index. -/
abbrev Ctxs := List CtxObj

/-- A non-nil `context.Context` value. -/
inductive Context where
  | Background
  | obj (id : Nat)
  deriving DecidableEq, Repr

/-- A non-nil `context.CancelFunc`: it cancels the object `id`. -/
structure CancelFunc where
  id : Nat
  deriving DecidableEq, Repr

/-- What `ctx.Err()` reports at clock reading `now`: the recorded error, or
`DeadlineExceeded` once the deadline has passed (the timer fired). -/
def Context.Err (h : Ctxs) (now : Nat) : Context → Option CtxErr
  | .Background => none
  | .obj i =>
    match h[i]? with
    | none => none
    | some o =>
      match o.err with
      | some e => some e
      | none =>
        match o.deadline with
        | some d => if d ≤ (now : Time) then some .DeadlineExceeded else none
        | none => none

/-- What `ctx.Deadline()` reports. -/
def Context.Deadline (h : Ctxs) : Context → Option Time
  | .Background => none
  | .obj i => (h[i]?).bind CtxObj.deadline

/-- Go `context.WithCancel(parent)`: a new object, done from the start when the
parent is done, and sharing the parent's deadline.  (Cancelling a parent after
it got a child is not propagated by this store: the program keeps the cancel
function of its newest context only.) -/
def WithCancel (h : Ctxs) (now : Nat) (parent : Context) :
    (Context × CancelFunc) × Ctxs :=
  ((.obj h.length, ⟨h.length⟩),
   h ++ [{ deadline := parent.Deadline h, err := parent.Err h now }])

/-- Go `context.WithDeadline(parent, d)`. -/
def WithDeadline (h : Ctxs) (now : Nat) (parent : Context) (d : Time) :
    (Context × CancelFunc) × Ctxs :=
  match parent.Deadline h with
  | some cur =>
    if cur < d then WithCancel h now parent
    else
      ((.obj h.length, ⟨h.length⟩),
       h ++ [{ deadline := some d,
               err := match parent.Err h now with
                      | some e => some e
                      | none => if d ≤ (now : Time) then some .DeadlineExceeded else none }])
  | none =>
    ((.obj h.length, ⟨h.length⟩),
     h ++ [{ deadline := some d,
             err := match parent.Err h now with
                    | some e => some e
                    | none => if d ≤ (now : Time) then some .DeadlineExceeded else none }])

/-- Go `context.WithTimeout(parent, t)`, which is
`WithDeadline(parent, time.Now().Add(t))`. -/
def WithTimeout (h : Ctxs) (now : Nat) (parent : Context) (t : Duration) :
    (Context × CancelFunc) × Ctxs :=
  WithDeadline h now parent ((now : Time) + t)

/-- Calling a cancel function: records `Canceled` unless the object is done. -/
def CancelFunc.call (f : CancelFunc) (h : Ctxs) (now : Nat) : Ctxs :=
  match h[f.id]? with
  | none => h
  | some o =>
    match (Context.obj f.id).Err h now with
    | some _ => h
    | none => h.set f.id { o with err := some .Canceled }

/-! ## Step and QueueStory -/

/-- The struct `Step`. -/
structure Step where
  Read : String
  Write : String
  SkipWrite : Bool
  Timeout : Duration
  timeoutCtx : Option Context
  deriving DecidableEq, Repr

/-- The zero value of `Step`. -/
def Step.zero : Step :=
  { Read := "", Write := "", SkipWrite := false, Timeout := 0, timeoutCtx := none }

/-- The struct `QueueStory`. -/
structure QueueStory where
  Sequence : List Step
  StepTimeout : Duration
  pastStepTime : Time
  ctx : Option Context
  ctxCancelFunc : Option CancelFunc
  deriving DecidableEq, Repr

/-- The zero value of `QueueStory`. -/
def QueueStory.zero : QueueStory :=
  { Sequence := [], StepTimeout := 0, pastStepTime := zeroTime, ctx := none,
    ctxCancelFunc := none }

/-- The method `Add`. -/
def QueueStory.Add (q : QueueStory) (args : List Step) : QueueStory :=
  { q with Sequence := q.Sequence ++ args }

/-- The method `Setup`, called at clock reading `now`. -/
def QueueStory.Setup (q : QueueStory) (h : Ctxs) (now : Nat) :
    (Option Context × GoError) × QueueStory × Ctxs :=
  match q.ctx with
  | some _ => ((none, .errAlreadyInitialized), q, h)
  | none =>
    let q1 := { q with pastStepTime := (now : Time) }
    let r1 := WithCancel h now .Background
    let q2 := { q1 with ctx := some r1.1.1, ctxCancelFunc := some r1.1.2 }
    if q2.StepTimeout ≠ 0 then
      let r2 := WithTimeout r1.2 now r1.1.1 q2.StepTimeout
      let q3 := { q2 with ctx := some r2.1.1, ctxCancelFunc := some r2.1.2 }
      ((q3.ctx, .nil), q3, r2.2)
    else
      ((q2.ctx, .nil), q2, r1.2)

/-- The method `Cancel`: calls `q.ctxCancelFunc`, a nil func value when
`Setup` has not run. -/
def QueueStory.Cancel (q : QueueStory) (h : Ctxs) (now : Nat) :
    Outcome Unit × QueueStory × Ctxs :=
  match q.ctxCancelFunc with
  | none => (.panic, q, h)
  | some f => (.ret (), q, f.call h now)

/-- The method `Teardown`. -/
def QueueStory.Teardown (q : QueueStory) (h : Ctxs) (now : Nat) :
    QueueStory × Ctxs :=
  match q.ctxCancelFunc with
  | some f => (q, f.call h now)
  | none => (q, h)

/-- The method `TickHandler`, called at clock reading `now`.
`context.WithDeadline` panics on a nil parent. -/
def QueueStory.TickHandler (q : QueueStory) (h : Ctxs) (now : Nat) :
    Outcome GoError × QueueStory × Ctxs :=
  match q.Sequence with
  | [] => (.ret .nil, q, h)
  | step :: _ =>
    if step.Timeout = 0 then (.ret .nil, q, h)
    else if (now : Time) < q.pastStepTime + step.Timeout then (.ret .nil, q, h)
    else
      match q.ctx with
      | none => (.panic, q, h)
      | some parent =>
        let r := WithDeadline h now parent zeroTime
        let q1 := { q with ctx := some r.1.1, ctxCancelFunc := some r.1.2 }
        (.ret (.timedOut (q1.Sequence.headD Step.zero).Read
                         (q1.Sequence.headD Step.zero).Timeout), q1, r.2)

/-- The method `shift`. -/
def QueueStory.shift (q : QueueStory) : Step × QueueStory :=
  match q.Sequence with
  | step :: rest => (step, { q with Sequence := rest })
  | [] => (Step.zero, { q with Sequence := [] })

/-- The method `HandleLine`, called at clock reading `now`. -/
def QueueStory.HandleLine (q : QueueStory) (s : String) (now : Nat) :
    (String × GoError) × QueueStory :=
  match q.Sequence with
  | [] => (("", .SkipZeroMatches), q)
  | front :: _ =>
    if similar s front.Read then
      let r := q.shift
      let q1 := { r.2 with pastStepTime := (now : Time) }
      if r.1.SkipWrite then (("", .SkipWrite), q1)
      else ((r.1.Write, .nil), q1)
    else (("", .SkipWrite), q)

/-- The method `Success`. -/
def QueueStory.Success (q : QueueStory) : Bool :=
  q.ctx.isSome && q.Sequence.isEmpty

/-- The method `Error` of an error value.  `durationString` is Go's
`time.Duration.String`, which `fmt.Errorf` applies to a `%v` duration.  (The
code never calls `Error` on a nil error.) -/
def GoError.Error (durationString : Duration → String) : GoError → String
  | .nil => ""
  | .SkipWrite => "Skip writing line input"
  | .SkipZeroMatches => "Skip line input due to no match available"
  | .errAlreadyInitialized => "Story has already initialized"
  | .New text => text
  | .timedOut read timeout =>
    "Timed out while waiting for line \"" ++ read ++ "\": timeout " ++ durationString timeout
  | .Canceled => "context canceled"
  | .DeadlineExceeded => "context deadline exceeded"
  | .ExecutionError r s =>
    let msgs1 : List String :=
      if r ≠ .nil then ["Run error: " ++ GoError.Error durationString r] else []
    let msgs2 : List String :=
      if s ≠ .nil then msgs1 ++ ["SIGTERM signal error: " ++ GoError.Error durationString s]
      else msgs1
    "; ".intercalate msgs2

/-! ## Runs of a story -/

/-- A story, the context objects allocated so far, and the clock. -/
structure World where
  q : QueueStory
  ctxs : Ctxs
  now : Nat
  deriving DecidableEq, Repr

/-- The calls a program may make on a story, and the passing of time. -/
inductive Op where
  | Add (args : List Step)
  | Setup
  | Cancel
  | Teardown
  | TickHandler
  | HandleLine (s : String)
  | sleep (d : Nat)
  deriving DecidableEq, Repr

/-- One call; `none` when the call panics. -/
def World.exec (w : World) : Op → Option World
  | .Add args => some { w with q := w.q.Add args }
  | .Setup =>
    some { w with q := (w.q.Setup w.ctxs w.now).2.1, ctxs := (w.q.Setup w.ctxs w.now).2.2 }
  | .Cancel =>
    match (w.q.Cancel w.ctxs w.now).1 with
    | .ret _ =>
      some { w with q := (w.q.Cancel w.ctxs w.now).2.1, ctxs := (w.q.Cancel w.ctxs w.now).2.2 }
    | .panic => none
  | .Teardown =>
    some { w with q := (w.q.Teardown w.ctxs w.now).1, ctxs := (w.q.Teardown w.ctxs w.now).2 }
  | .TickHandler =>
    match (w.q.TickHandler w.ctxs w.now).1 with
    | .ret _ =>
      some { w with q := (w.q.TickHandler w.ctxs w.now).2.1,
                    ctxs := (w.q.TickHandler w.ctxs w.now).2.2 }
    | .panic => none
  | .HandleLine s => some { w with q := (w.q.HandleLine s w.now).2 }
  | .sleep d => some { w with now := w.now + d }

/-- A sequence of calls; `none` when one of them panics. -/
def World.run (w : World) : List Op → Option World
  | [] => some w
  | op :: ops => (w.exec op).bind (fun w1 => w1.run ops)

/-- The story's context reports `context.Canceled`. -/
def World.cancelled (w : World) : Bool :=
  match w.q.ctx with
  | some c => decide (c.Err w.ctxs w.now = some CtxErr.Canceled)
  | none => false

/-- The story's context reports `context.DeadlineExceeded`. -/
def World.timedOut (w : World) : Bool :=
  match w.q.ctx with
  | some c => decide (c.Err w.ctxs w.now = some CtxErr.DeadlineExceeded)
  | none => false

/-- One millisecond, in nanoseconds. -/
def Millisecond : Nat := 1000000

/-- The story of `TestStoryHandleLineAndTeardown`, before `Setup`. -/
def teardownTestWorld : World :=
  { q := { QueueStory.zero with
            Sequence := [{ Step.zero with Read := "Select from 1..2:", Write := "2" }],
            StepTimeout := 40 * Millisecond },
    ctxs := [], now := 0 }

/-- The calls of `TestStoryHandleLineAndTeardown`. -/
def teardownTestOps : List Op :=
  [.Setup, .TickHandler, .HandleLine "Select from 1..2:", .sleep (10 * Millisecond),
   .TickHandler, .Teardown]

/-- A story whose only step has a step timeout of 10ms, before `Setup`. -/
def stepTimeoutWorld : World :=
  { q := { QueueStory.zero with
            Sequence := [{ Step.zero with Read := "Select from 1..2:", Write := "2",
                                          Timeout := 10 * Millisecond }] },
    ctxs := [], now := 0 }

/-- The calls of a run in which `TickHandler` reports the step timeout 20ms
after `Setup`, and the awaited line is handled afterwards. -/
def stepTimeoutOps : List Op :=
  [.Setup, .sleep (20 * Millisecond), .TickHandler, .HandleLine "Select from 1..2:"]

/-- The condition under which `TickHandler` reports a step timeout: the queue
is non-empty, the front step's `Timeout` is nonzero and the time elapsed since
the last transition is at least that `Timeout`. -/
def stepExpired (q : QueueStory) (now : Nat) : Prop :=
  ∃ front rest, q.Sequence = front :: rest ∧ front.Timeout ≠ 0 ∧
    front.Timeout ≤ (now : Time) - q.pastStepTime


/-! ## Story and Terminal -/

/-- The interface `Story`, over the state `σ` of the implementation.  Every
method may panic. -/
structure Story (σ : Type) where
  Setup : σ → Outcome (Option Context × GoError) × σ
  Teardown : σ → Outcome Unit × σ
  TickHandler : σ → Outcome GoError × σ
  HandleLine : String → σ → Outcome (String × GoError) × σ

/-- A `*QueueStory` as a `Story`: the methods read the clock of the world. -/
def QueueStory.story : Story World :=
  { Setup := fun w =>
      (.ret (w.q.Setup w.ctxs w.now).1,
       { w with q := (w.q.Setup w.ctxs w.now).2.1, ctxs := (w.q.Setup w.ctxs w.now).2.2 })
    Teardown := fun w =>
      (.ret (),
       { w with q := (w.q.Teardown w.ctxs w.now).1, ctxs := (w.q.Teardown w.ctxs w.now).2 })
    TickHandler := fun w =>
      ((w.q.TickHandler w.ctxs w.now).1,
       { w with q := (w.q.TickHandler w.ctxs w.now).2.1,
                ctxs := (w.q.TickHandler w.ctxs w.now).2.2 })
    HandleLine := fun s w =>
      (.ret (w.q.HandleLine s w.now).1, { w with q := (w.q.HandleLine s w.now).2 }) }

/-- An `*os.File`: the pseudo terminal handle. -/
structure File where
  fd : Nat
  deriving DecidableEq, Repr

/-- An `*os.ProcessState`. -/
structure ProcessState where
  exitCode : Nat
  deriving DecidableEq, Repr

/-- A call made on the pseudo terminal handle. -/
inductive PtyCall where
  | Write (b : List Nat)
  | WriteString (s : String)
  | Close
  deriving DecidableEq, Repr

/-- The struct `Terminal`.  `Command` is the command line, `EchoStream` the
identity of the writer (nil when absent), `bfs` the content of the buffer,
`end_` the identity of the channel in the field `end`. -/
structure Terminal where
  Command : String
  EchoStream : Option Nat
  CopyStreamError : GoError
  processState : Option ProcessState
  terminal : Option File
  bfs : Option String
  end_ : Option Nat
  deriving DecidableEq, Repr

/-- The zero value of `Terminal` for a command. -/
def Terminal.zero (cmd : String) : Terminal :=
  { Command := cmd, EchoStream := none, CopyStreamError := .nil, processState := none,
    terminal := none, bfs := none, end_ := none }

/-- The variable `EOT`. -/
def EOT : List Nat := [4]

/-- The method `Run`, over the three methods it calls: each is a step on the
state `τ` that returns an error. -/
def Terminal.Run {τ : Type} (Start Watch Stop : τ → GoError × τ) (t : τ) : GoError × τ :=
  if (Start t).1 ≠ .nil then ((Start t).1, (Start t).2)
  else
    let rw := Watch (Start t).2
    let rs := Stop rw.2
    if rw.1 = .nil ∧ rs.1 = .nil then (.nil, rs.2)
    else (.ExecutionError rw.1 rs.1, rs.2)

/-- The method `Stop`.  `writeErr` and `closeErr` are what the write of `EOT`
and the `Close` of the handle return when they are called; `calls` is the list
of calls made on the handle so far. -/
def Terminal.Stop (t : Terminal) (writeErr closeErr : GoError) (calls : List PtyCall) :
    GoError × Terminal × List PtyCall :=
  match t.processState with
  | none =>
    if writeErr ≠ .nil then (writeErr, t, calls ++ [.Write EOT])
    else (closeErr, t, calls ++ [.Write EOT, .Close])
  | some _ => (.nil, t, calls)

/-- The method `Start`.  `newChan` is the channel `make` returns and `pty` is
what `pty.Start(t.Command)` returns: the handle and the error.  The two
goroutines a successful start launches (the copy of the output into `bfs` and
the wait for the exit of the process) act later, as `TermEvent`s. -/
def Terminal.Start (t : Terminal) (newChan : Nat) (pty : Option File × GoError) :
    GoError × Terminal :=
  match t.terminal with
  | some _ => (.New "Already started", t)
  | none =>
    let t1 := { t with end_ := some newChan }
    let t2 := { t1 with terminal := pty.1 }
    if pty.2 = .nil then (pty.2, { t2 with bfs := some "" })
    else (pty.2, t2)

/-- What happens to a started terminal between two calls of `Start`: a call of
`Stop`, the recording of the exit of the process, output copied into the
buffer, the end of the copy. -/
inductive TermEvent where
  | Stop (writeErr closeErr : GoError)
  | exited (ps : ProcessState)
  | output (data : String)
  | copyEnded (err : GoError)
  deriving DecidableEq, Repr

/-- The terminal after an event. -/
def Terminal.after (t : Terminal) : TermEvent → Terminal
  | .Stop writeErr closeErr => (t.Stop writeErr closeErr []).2.1
  | .exited ps => { t with processState := some ps }
  | .output data => { t with bfs := t.bfs.map (fun b => b ++ data) }
  | .copyEnded err => { t with CopyStreamError := err }

/-- The method `WriteLine`: `t.terminal.WriteString(s + "\n")`.  `writeErr` is
what the write returns. -/
def Terminal.WriteLine (s : String) (writeErr : GoError) (calls : List PtyCall) :
    GoError × List PtyCall :=
  (writeErr, calls ++ [.WriteString (s ++ "\n")])

/-- The method `Watch`.  The loop that polls `readLine` until the context is
done is the parameter `loop`; the deferred `Teardown` runs on every way out. -/
def Terminal.Watch {σ : Type} (s : Story σ)
    (loop : Option Context → σ → Outcome GoError × σ) (st : σ) : Outcome GoError × σ :=
  match s.Setup st with
  | (.panic, st1) => (.panic, (s.Teardown st1).2)
  | (.ret (ctx, err), st1) =>
    if err ≠ .nil then
      match s.Teardown st1 with
      | (.ret _, st2) => (.ret err, st2)
      | (.panic, st2) => (.panic, st2)
    else
      match s.Teardown (loop ctx st1).2 with
      | (.ret _, st3) => ((loop ctx st1).1, st3)
      | (.panic, st3) => (.panic, st3)

/-- The method `handleLine`, for the line `readLine` has read.  `writeErr` is
what the write to the terminal returns if it is made. -/
def Terminal.handleLine {σ : Type} (s : Story σ) (line : String) (writeErr : GoError)
    (st : σ) (calls : List PtyCall) : Outcome (Bool × GoError) × σ × List PtyCall :=
  if line.length ≠ 0 then
    match s.HandleLine line st with
    | (.panic, st1) => (.panic, st1, calls)
    | (.ret (inp, err), st1) =>
      if err = .SkipWrite ∨ err = .SkipZeroMatches then (.ret (false, .nil), st1, calls)
      else if err = .nil then
        if (Terminal.WriteLine inp writeErr calls).1 ≠ .nil then
          (.ret (false, (Terminal.WriteLine inp writeErr calls).1), st1,
           (Terminal.WriteLine inp writeErr calls).2)
        else (.ret (false, .nil), st1, (Terminal.WriteLine inp writeErr calls).2)
      else (.ret (false, err), st1, calls)
  else (.ret (false, .nil), st, calls)

/-- Names of the three methods `Run` calls. -/
inductive Call where
  | Start
  | Watch
  | Stop
  deriving DecidableEq, Repr

/-- A step that records its call and returns the error `e`. -/
def logged (c : Call) (e : GoError) (log : List Call) : GoError × List Call :=
  (e, log ++ [c])

/-- The story `faultyMock` of the tests, over a counter of its `HandleLine`
calls. -/
def faultyMock : Story Nat :=
  { Setup := fun n => (.ret (some Context.Background, .nil), n)
    Teardown := fun n => (.ret (), n)
    TickHandler := fun n => (.ret .nil, n)
    HandleLine := fun _ n => (.ret ("", .New "Faulty mock"), n + 1) }


/-- Feeding lines in order to `HandleLine`; each line comes with the clock
reading of its call.  Returns what every call returned, and the final story. -/
def feed (q : QueueStory) : List (String × Nat) → List (String × GoError) × QueueStory
  | [] => ([], q)
  | l :: ls =>
    let r := q.HandleLine l.1 l.2
    let rs := feed r.2 ls
    (r.1 :: rs.1, rs.2)

/-- The lines of a run in which every step is eventually matched: before the
line that matches a step there may stand any number of lines that do not match
that step, and nothing follows the line of the last step. -/
inductive Interleaved : List Step → List String → Prop where
  | done : Interleaved [] []
  | noise (st : Step) (steps : List Step) (l : String) (ls : List String) :
      similar l st.Read = false → Interleaved (st :: steps) ls →
      Interleaved (st :: steps) (l :: ls)
  | hit (st : Step) (steps : List Step) (l : String) (ls : List String) :
      similar l st.Read = true → Interleaved steps ls →
      Interleaved (st :: steps) (l :: ls)

/-- The responses that were returned with a nil error. -/
def responses (rs : List (String × GoError)) : List String :=
  (rs.filter (fun r => decide (r.2 = GoError.nil))).map Prod.fst

/-- The `Write` values of the steps whose `SkipWrite` is false. -/
def expectedWrites (steps : List Step) : List String :=
  (steps.filter (fun st => !st.SkipWrite)).map Step.Write

/-- The three steps of the package's test story. -/
def testSteps : List Step :=
  [ { Step.zero with Read := "Starting", SkipWrite := true },
    { Step.zero with Read := "Your name:", Write := "Henrique" },
    { Step.zero with Read := "Your age:", Write := "10" } ]

/-- The lines of the test program, with a spurious line before the second
prompt, and the clock readings of the calls. -/
def testLines : List (String × Nat) :=
  [("Starting", 1), ("Your name is Henrique", 2), ("Your name: ", 3), ("Your age: ", 4)]

/-- The state `TestStoryHandleLineAndTeardown` ends in. -/
def teardownTestFinal : World :=
  { q := { Sequence := [], StepTimeout := 40 * Millisecond, pastStepTime := 0,
           ctx := some (Context.obj 1), ctxCancelFunc := some ⟨1⟩ },
    ctxs := [{ deadline := none, err := none },
             { deadline := some (40 * Millisecond), err := some CtxErr.Canceled }],
    now := 10 * Millisecond }

/-- A story set up at clock reading 0 whose front step has a 10ns timeout. -/
def tickBoundaryStory : QueueStory :=
  { Sequence := [{ Step.zero with Read := "Your age:", Write := "10", Timeout := 10 }],
    StepTimeout := 0, pastStepTime := 0,
    ctx := some (Context.obj 0), ctxCancelFunc := some ⟨0⟩ }

/-! ## readLine -/

/-- The variable `io.EOF`. -/
def EOF : GoError := .New "EOF"

/-- Go `(*bytes.Buffer).ReadString(delim)` on the unread content of a buffer:
the data up to and including the first `delim` and a nil error, or, when there
is no `delim`, all the data and `io.EOF`.  Returns the line, the error, and the
content left unread. -/
def ReadString (content : String) (delim : Char) : (String × GoError) × String :=
  match content.data.span (fun c => c != delim) with
  | (pre, []) => ((String.mk pre, EOF), "")
  | (pre, d :: post) => ((String.mk (pre ++ [d]), .nil), String.mk post)

/-- The method `readLine`: one poll.  A nil `t.bfs` is dereferenced by
`ReadString`, a panic.  The line read is the one `handleLine` works on. -/
def Terminal.readLine {σ : Type} (t : Terminal) (s : Story σ) (writeErr : GoError)
    (st : σ) (calls : List PtyCall) :
    Outcome (Bool × GoError) × Terminal × σ × List PtyCall :=
  match t.processState with
  | some _ => (.ret (true, .nil), t, st, calls)
  | none =>
    match t.bfs with
    | none => (.panic, t, st, calls)
    | some content =>
      let r := ReadString content '\n'
      let t1 := { t with bfs := some r.2 }
      if r.1.2 ≠ .nil ∧ r.1.2 ≠ EOF then (.ret (false, r.1.2), t1, st, calls)
      else
        match s.TickHandler st with
        | (.panic, st1) => (.panic, t1, st1, calls)
        | (.ret err, st1) =>
          if err ≠ .nil then (.ret (false, err), t1, st1, calls)
          else
            ((Terminal.handleLine s r.1.1 writeErr st1 calls).1, t1,
             (Terminal.handleLine s r.1.1 writeErr st1 calls).2.1,
             (Terminal.handleLine s r.1.1 writeErr st1 calls).2.2)

/-- A story that records the lines handed to its `HandleLine` and answers
none of them. -/
def recorder : Story (List String) :=
  { Setup := fun log => (.ret (some Context.Background, .nil), log)
    Teardown := fun log => (.ret (), log)
    TickHandler := fun log => (.ret .nil, log)
    HandleLine := fun l log => (.ret ("", .SkipWrite), log ++ [l]) }

/-- A started terminal, its process running, with `content` in the buffer. -/
def polled (content : String) : Terminal :=
  { Terminal.zero "mocks/mock.sh" with
      terminal := some ⟨3⟩, bfs := some content, end_ := some 0 }

/-- The story is terminated: it has a context and a cancel function, and the
context is done (it reports `Canceled` or `DeadlineExceeded`). -/
def World.terminated (w : World) : Prop :=
  ∃ c f, w.q.ctx = some c ∧ w.q.ctxCancelFunc = some f ∧ c.Err w.ctxs w.now ≠ none

/-- A story on which `Setup` has never run. -/
def unstartedWorld : World :=
  { q := QueueStory.zero, ctxs := [], now := 0 }

/-- The calls of `TestStoryCancel`: `Setup`, then `Cancel`. -/
def cancelTestOps : List Op :=
  [.Setup, .Cancel]

/-- The state `cancelTestOps` leaves the story of `teardownTestWorld` in. -/
def cancelTestFinal : World :=
  { q := { Sequence := [{ Step.zero with Read := "Select from 1..2:", Write := "2" }],
           StepTimeout := 40 * Millisecond, pastStepTime := 0,
           ctx := some (Context.obj 1), ctxCancelFunc := some ⟨1⟩ },
    ctxs := [{ deadline := none, err := none },
             { deadline := some (40 * Millisecond), err := some CtxErr.Canceled }],
    now := 0 }

/-- The calls up to the report of a step timeout: `Setup`, 20ms pass,
`TickHandler`. -/
def timedOutOps : List Op :=
  [.Setup, .sleep (20 * Millisecond), .TickHandler]

/-- The story is set up: its context is an allocated context object and its
cancel function is the one of that object, as `Setup` and `TickHandler` leave
them. -/
def World.setUp (w : World) : Prop :=
  ∃ i o, w.q.ctx = some (Context.obj i) ∧ w.q.ctxCancelFunc = some ⟨i⟩ ∧
    w.ctxs[i]? = some o

/-- The state of the story of `teardownTestWorld` right after `Setup`. -/
def setupTestFinal : World :=
  { q := { Sequence := [{ Step.zero with Read := "Select from 1..2:", Write := "2" }],
           StepTimeout := 40 * Millisecond, pastStepTime := 0,
           ctx := some (Context.obj 1), ctxCancelFunc := some ⟨1⟩ },
    ctxs := [{ deadline := none, err := none },
             { deadline := some (40 * Millisecond), err := none }],
    now := 0 }

/-! ## HandleLine -/

theorem similar_iff (s ref : String) :
    similar s ref = true ↔ TrimSpace s = TrimSpace ref := by
  simp [similar]

/-- C1: on a non-empty queue, a line equal to the front step's `Read` after
trimming whitespace from both makes `HandleLine` remove exactly the front step
(the rest of the queue is kept as it was, the last-transition time becomes the
clock reading, no other field changes) and return `(front.Write, nil)` when
`front.SkipWrite` is false and `("", SkipWrite)` when it is true. -/
theorem HandleLine_match (q : QueueStory) (front : Step) (rest : List Step)
    (s : String) (now : Nat)
    (hseq : q.Sequence = front :: rest)
    (hsim : TrimSpace s = TrimSpace front.Read) :
    (q.HandleLine s now).2 = { q with Sequence := rest, pastStepTime := (now : Time) } ∧
    (front.SkipWrite = false → (q.HandleLine s now).1 = (front.Write, GoError.nil)) ∧
    (front.SkipWrite = true → (q.HandleLine s now).1 = ("", GoError.SkipWrite)) := by
  have h : similar s front.Read = true := (similar_iff s front.Read).mpr hsim
  cases hw : front.SkipWrite <;>
    simp [QueueStory.HandleLine, QueueStory.shift, hseq, h, hw]

/-- C1 at the line `"Your age: "` against the literal `"Your age:"`. -/
theorem HandleLine_match_witness :
    ({ QueueStory.zero with
        Sequence := [{ Step.zero with Read := "Your age:", Write := "10" }] }
      |>.HandleLine "Your age: " 7).2 =
      { QueueStory.zero with Sequence := [], pastStepTime := 7 } ∧
    ({ QueueStory.zero with
        Sequence := [{ Step.zero with Read := "Your age:", Write := "10" }] }
      |>.HandleLine "Your age: " 7).1 = ("10", GoError.nil) :=
  have h := HandleLine_match
    { QueueStory.zero with
        Sequence := [{ Step.zero with Read := "Your age:", Write := "10" }] }
    { Step.zero with Read := "Your age:", Write := "10" } [] "Your age: " 7 rfl
    (by decide)
  ⟨h.1, h.2.1 rfl⟩

/-- What feeding an interleaved run to a story that was set up gives. -/
theorem feed_interleaved (lines : List (String × Nat)) :
    ∀ (steps : List Step) (q : QueueStory),
      q.Sequence = steps → q.ctx.isSome = true →
      Interleaved steps (lines.map Prod.fst) →
      (feed q lines).2.Sequence = [] ∧
      (feed q lines).2.ctx.isSome = true ∧
      (∀ r ∈ (feed q lines).1, r.2 = GoError.nil ∨ r.2 = GoError.SkipWrite) ∧
      responses (feed q lines).1 = expectedWrites steps := by
  induction lines with
  | nil =>
    intro steps q hseq hctx hi
    cases hi
    simp [feed, hseq, hctx, responses, expectedWrites]
  | cons l ls ih =>
    intro steps q hseq hctx hi
    cases hi with
    | noise st rest _ _ hno htail =>
      have hstep : q.HandleLine l.1 l.2 = (("", GoError.SkipWrite), q) := by
        simp [QueueStory.HandleLine, hseq, hno]
      obtain ⟨h1, h2, h3, h4⟩ := ih (st :: rest) q hseq hctx htail
      refine ⟨?_, ?_, ?_, ?_⟩
      · simpa [feed, hstep] using h1
      · simpa [feed, hstep] using h2
      · intro r hr
        simp only [feed, hstep, List.mem_cons] at hr
        rcases hr with hr | hr
        · right; rw [hr]
        · exact h3 r hr
      · simpa [feed, hstep, responses] using h4
    | hit st rest _ _ hyes htail =>
      have hq : (q.HandleLine l.1 l.2).2 =
          { q with Sequence := rest, pastStepTime := (l.2 : Time) } := by
        cases hw : st.SkipWrite <;>
          simp [QueueStory.HandleLine, QueueStory.shift, hseq, hyes, hw]
      obtain ⟨h1, h2, h3, h4⟩ :=
        ih rest { q with Sequence := rest, pastStepTime := (l.2 : Time) } rfl hctx htail
      cases hw : st.SkipWrite with
      | false =>
        have hr1 : (q.HandleLine l.1 l.2).1 = (st.Write, GoError.nil) := by
          simp [QueueStory.HandleLine, QueueStory.shift, hseq, hyes, hw]
        refine ⟨?_, ?_, ?_, ?_⟩
        · simpa [feed, hq] using h1
        · simpa [feed, hq] using h2
        · intro r hr
          simp only [feed, hq, hr1, List.mem_cons] at hr
          rcases hr with hr | hr
          · left; rw [hr]
          · exact h3 r hr
        · simp only [feed, hq, hr1, responses, expectedWrites] at h4 ⊢
          simp [hw, h4]
      | true =>
        have hr1 : (q.HandleLine l.1 l.2).1 = ("", GoError.SkipWrite) := by
          simp [QueueStory.HandleLine, QueueStory.shift, hseq, hyes, hw]
        refine ⟨?_, ?_, ?_, ?_⟩
        · simpa [feed, hq] using h1
        · simpa [feed, hq] using h2
        · intro r hr
          simp only [feed, hq, hr1, List.mem_cons] at hr
          rcases hr with hr | hr
          · right; rw [hr]
          · exact h3 r hr
        · simp only [feed, hq, hr1, responses, expectedWrites] at h4 ⊢
          simp [hw, h4]

theorem Setup_fresh (q : QueueStory) (h : Ctxs) (now : Nat) (hctx : q.ctx = none) :
    (q.Setup h now).1.2 = GoError.nil ∧
    (q.Setup h now).1.1.isSome = true ∧
    (q.Setup h now).2.1.ctx = (q.Setup h now).1.1 ∧
    (q.Setup h now).2.1.Sequence = q.Sequence ∧
    (q.Setup h now).2.1.pastStepTime = (now : Time) := by
  unfold QueueStory.Setup
  rw [hctx]
  by_cases hz : q.StepTimeout = 0 <;> simp [hz]

/-- C2: steps `steps` are added to a fresh story (no step queued, `Setup` not
yet run), `Setup` runs, and the lines of a run in which every step is
eventually matched (any number of lines not matching the pending step before
the line that matches it) are fed in order to `HandleLine`.  Then `Setup`
returned no error, the queue ends empty, `Success()` is true, every call
returned either a nil error or `SkipWrite`, and the responses returned with a
nil error are the `Write` values of the steps whose `SkipWrite` is false, in
step order. -/
theorem full_run_succeeds (q0 : QueueStory) (h : Ctxs) (t0 : Nat)
    (steps : List Step) (lines : List (String × Nat))
    (hfresh : q0.Sequence = [] ∧ q0.ctx = none)
    (hlines : Interleaved steps (lines.map Prod.fst)) :
    ((q0.Add steps).Setup h t0).1.2 = GoError.nil ∧
    (feed ((q0.Add steps).Setup h t0).2.1 lines).2.Sequence = [] ∧
    (feed ((q0.Add steps).Setup h t0).2.1 lines).2.Success = true ∧
    (∀ r ∈ (feed ((q0.Add steps).Setup h t0).2.1 lines).1,
      r.2 = GoError.nil ∨ r.2 = GoError.SkipWrite) ∧
    responses (feed ((q0.Add steps).Setup h t0).2.1 lines).1 = expectedWrites steps := by
  have hadd : (q0.Add steps).ctx = none := by simp [QueueStory.Add, hfresh.2]
  have hseq : (q0.Add steps).Sequence = steps := by simp [QueueStory.Add, hfresh.1]
  obtain ⟨s1, s2, s3, s4, _⟩ := Setup_fresh (q0.Add steps) h t0 hadd
  have hctx : ((q0.Add steps).Setup h t0).2.1.ctx.isSome = true := by rw [s3]; exact s2
  obtain ⟨f1, f2, f3, f4⟩ :=
    feed_interleaved lines steps ((q0.Add steps).Setup h t0).2.1 (s4.trans hseq) hctx hlines
  refine ⟨s1, f1, ?_, f3, f4⟩
  simp [QueueStory.Success, f1, f2]

/-- C2 at the test story, fed the test program's lines. -/
theorem full_run_succeeds_witness :
    (feed ((QueueStory.zero.Add testSteps).Setup [] 0).2.1 testLines).2.Sequence = [] ∧
    (feed ((QueueStory.zero.Add testSteps).Setup [] 0).2.1 testLines).2.Success = true ∧
    responses (feed ((QueueStory.zero.Add testSteps).Setup [] 0).2.1 testLines).1
      = ["Henrique", "10"] :=
  have h := full_run_succeeds QueueStory.zero [] 0 testSteps testLines ⟨rfl, rfl⟩
    (Interleaved.hit _ _ _ _ (by decide)
      (Interleaved.noise _ _ _ _ (by decide)
        (Interleaved.hit _ _ _ _ (by decide)
          (Interleaved.hit _ _ _ _ (by decide) Interleaved.done))))
  ⟨h.2.1, h.2.2.1, h.2.2.2.2⟩

/-- C3: a line that does not match the front step (after whitespace trimming)
leaves the whole story unchanged and returns `("", SkipWrite)`, whatever the
later steps are, also when the line matches one of them; on an empty queue
`HandleLine` returns `("", SkipZeroMatches)` for every line and leaves the story
unchanged; and `SkipZeroMatches` is not `SkipWrite`. -/
theorem HandleLine_no_match :
    (∀ (q : QueueStory) (front : Step) (rest : List Step) (s : String) (now : Nat),
      q.Sequence = front :: rest → TrimSpace s ≠ TrimSpace front.Read →
      q.HandleLine s now = (("", GoError.SkipWrite), q)) ∧
    (∀ (q : QueueStory) (s : String) (now : Nat),
      q.Sequence = [] →
      q.HandleLine s now = (("", GoError.SkipZeroMatches), q) ∧
      (q.HandleLine s now).2.Sequence = []) ∧
    GoError.SkipZeroMatches ≠ GoError.SkipWrite := by
  refine ⟨?_, ?_, by decide⟩
  · intro q front rest s now hseq hne
    have h : similar s front.Read = false := by
      simpa [similar] using hne
    simp [QueueStory.HandleLine, hseq, h]
  · intro q s now hseq
    simp [QueueStory.HandleLine, hseq]

/-- C3 at a line that matches the second step of the queue but not the first,
and at an empty queue. -/
theorem HandleLine_no_match_witness :
    ({ QueueStory.zero with Sequence := testSteps } |>.HandleLine "Your name: " 5)
      = (("", GoError.SkipWrite), { QueueStory.zero with Sequence := testSteps }) ∧
    similar "Your name: " "Your name:" = true ∧
    QueueStory.zero.HandleLine "Your name: " 5
      = (("", GoError.SkipZeroMatches), QueueStory.zero) :=
  ⟨HandleLine_no_match.1 { QueueStory.zero with Sequence := testSteps }
      { Step.zero with Read := "Starting", SkipWrite := true }
      [ { Step.zero with Read := "Your name:", Write := "Henrique" },
        { Step.zero with Read := "Your age:", Write := "10" } ]
      "Your name: " 5 rfl (by decide),
   by decide,
   (HandleLine_no_match.2.1 QueueStory.zero "Your name: " 5 rfl).1⟩

/-! ## Success, TickHandler and the frame of the queue -/

theorem exec_ctx_isSome (w w1 : World) (op : Op) (h : w.exec op = some w1) :
    w1.q.ctx.isSome = (w.q.ctx.isSome || decide (op = Op.Setup)) := by
  cases op with
  | Add args =>
    simp only [World.exec, Option.some.injEq] at h
    subst h
    simp [QueueStory.Add]
  | Setup =>
    simp only [World.exec, Option.some.injEq] at h
    subst h
    cases hc : w.q.ctx with
    | some c => simp [QueueStory.Setup, hc]
    | none =>
      by_cases hz : w.q.StepTimeout = 0 <;> simp [QueueStory.Setup, hc, hz]
  | Cancel =>
    cases hf : w.q.ctxCancelFunc with
    | none => simp [World.exec, QueueStory.Cancel, hf] at h
    | some f =>
      simp only [World.exec, QueueStory.Cancel, hf, Option.some.injEq] at h
      subst h
      simp
  | Teardown =>
    simp only [World.exec, Option.some.injEq] at h
    subst h
    cases hf : w.q.ctxCancelFunc <;> simp [QueueStory.Teardown, hf]
  | TickHandler =>
    unfold World.exec at h
    unfold QueueStory.TickHandler at h
    cases hs : w.q.Sequence with
    | nil =>
      simp only [hs, Option.some.injEq] at h
      subst h
      simp
    | cons st rest =>
      simp only [hs] at h
      by_cases hz : st.Timeout = 0
      · simp only [hz, if_true, Option.some.injEq] at h
        subst h
        simp
      · by_cases hb : (w.now : Time) < w.q.pastStepTime + st.Timeout
        · simp only [hz, hb, if_true, if_false, Option.some.injEq] at h
          subst h
          simp
        · cases hc : w.q.ctx with
          | none => simp [hz, hb, hc] at h
          | some c =>
            simp only [hz, hb, hc, if_false, Option.some.injEq] at h
            subst h
            simp
  | HandleLine s =>
    simp only [World.exec, Option.some.injEq] at h
    subst h
    unfold QueueStory.HandleLine
    cases hs : w.q.Sequence with
    | nil => simp
    | cons st rest =>
      by_cases hm : similar s st.Read = true
      · cases hw : st.SkipWrite <;> simp [QueueStory.shift, hs, hm, hw]
      · simp [hm]
  | sleep d =>
    simp only [World.exec, Option.some.injEq] at h
    subst h
    simp

theorem run_ctx_isSome (ops : List Op) :
    ∀ (w w1 : World), w.run ops = some w1 →
      (w1.q.ctx.isSome = true ↔ (w.q.ctx.isSome = true ∨ Op.Setup ∈ ops)) := by
  induction ops with
  | nil =>
    intro w w1 h
    simp only [World.run, Option.some.injEq] at h
    subst h
    simp
  | cons op ops ih =>
    intro w w1 h
    simp only [World.run] at h
    cases he : w.exec op with
    | none => simp [he] at h
    | some w2 =>
      simp only [he, Option.bind_some] at h
      rw [ih w2 w1 h, exec_ctx_isSome w w2 op he]
      simp only [Bool.or_eq_true, decide_eq_true_eq, List.mem_cons]
      constructor
      · rintro ((h1 | h1) | h1)
        · exact Or.inl h1
        · exact Or.inr (Or.inl h1.symm)
        · exact Or.inr (Or.inr h1)
      · rintro (h1 | h1 | h1)
        · exact Or.inl (Or.inl h1)
        · exact Or.inl (Or.inr h1.symm)
        · exact Or.inr h1

/-- C4, as the code has it: in every state reached from a story on which
`Setup` has not run, through `Add`, `Setup`, `Cancel`, `Teardown`,
`TickHandler` and `HandleLine` calls at any times, `Success()` is true if and
only if `Setup` has run and the queue is empty.  Being cancelled or timed out
plays no part. -/
theorem Success_iff_Setup_and_empty (w0 : World) (ops : List Op) (w : World)
    (h0 : w0.q.ctx = none) (hrun : w0.run ops = some w) :
    w.q.Success = true ↔ (Op.Setup ∈ ops ∧ w.q.Sequence = []) := by
  have h := run_ctx_isSome ops w0 w hrun
  simp only [h0, Option.isSome_none, Bool.false_eq_true, false_or] at h
  simp [QueueStory.Success, h]

/-- C4 as amended, at the run of `TestStoryHandleLineAndTeardown`. -/
theorem Success_iff_Setup_and_empty_witness :
    teardownTestFinal.q.Success = true ↔
      (Op.Setup ∈ teardownTestOps ∧ teardownTestFinal.q.Sequence = []) :=
  Success_iff_Setup_and_empty teardownTestWorld teardownTestOps teardownTestFinal rfl
    (by decide)

/-- C4 as stated fails: after the calls of `TestStoryHandleLineAndTeardown` the
story is cancelled (its context reports `Canceled`) and `Success()` is true;
and a story whose step timeout was reported by `TickHandler`, and whose line
then arrives, is timed out (its context reports `DeadlineExceeded`) and
`Success()` is true. -/
theorem Success_true_when_cancelled :
    (teardownTestWorld.run teardownTestOps).map (fun w => (w.q.Success, w.cancelled))
      = some (true, true) ∧
    (stepTimeoutWorld.run stepTimeoutOps).map (fun w => (w.q.Success, w.timedOut))
      = some (true, true) := by
  decide

theorem before_iff (a b c : Int) : a < b + c ↔ ¬ c ≤ a - b := by omega

theorem not_before_iff (a b c : Int) : ¬ a < b + c ↔ c ≤ a - b := by omega

/-- C5, as the code has it: on a story on which `Setup` has run, `TickHandler`
returns an error exactly when the queue is non-empty, the front step's `Timeout`
is nonzero and the time elapsed since the last transition is at least that
`Timeout` (equal to it, or more); in every other case it returns nil.  It does
not panic. -/
theorem TickHandler_timeout_iff (q : QueueStory) (h : Ctxs) (now : Nat)
    (hsetup : q.ctx ≠ none) :
    ((∃ e, e ≠ GoError.nil ∧ (q.TickHandler h now).1 = Outcome.ret e) ↔ stepExpired q now) ∧
    (¬ stepExpired q now → (q.TickHandler h now).1 = Outcome.ret GoError.nil) := by
  obtain ⟨c, hc⟩ := Option.ne_none_iff_exists'.mp hsetup
  unfold stepExpired QueueStory.TickHandler
  cases hs : q.Sequence with
  | nil => simp
  | cons st rest =>
    by_cases hz : st.Timeout = 0
    · simp [hz]
    · by_cases hb : (now : Time) < q.pastStepTime + st.Timeout
      · have hb2 : ¬ st.Timeout ≤ (now : Time) - q.pastStepTime :=
          fun hle => (before_iff _ _ _).mp hb hle
        simp [hz, hb, hb2]
      · have hb2 : st.Timeout ≤ (now : Time) - q.pastStepTime :=
          not_before_iff _ _ _ |>.mp hb
        simp [hz, hb, hb2, hc]

/-- C5 as amended, at an elapsed time equal to the step's timeout. -/
theorem TickHandler_timeout_iff_witness :
    ∃ e, e ≠ GoError.nil ∧
      (tickBoundaryStory.TickHandler [{ deadline := none, err := none }] 10).1
        = Outcome.ret e :=
  (TickHandler_timeout_iff tickBoundaryStory [{ deadline := none, err := none }] 10
    (by decide)).1.mpr
    ⟨{ Step.zero with Read := "Your age:", Write := "10", Timeout := 10 }, [], rfl,
      by decide, by decide⟩

/-- C5 as stated fails: the story was set up at clock reading 0 (which leaves
the story `tickBoundaryStory` and one context object), its front step has
timeout 10, and at clock reading 10 the elapsed time, 10, does not exceed the
timeout; `TickHandler` reports the step timeout all the same. -/
theorem TickHandler_at_boundary :
    ((QueueStory.zero.Add
        [{ Step.zero with Read := "Your age:", Write := "10", Timeout := 10 }]).Setup [] 0).2.1
      = tickBoundaryStory ∧
    ((QueueStory.zero.Add
        [{ Step.zero with Read := "Your age:", Write := "10", Timeout := 10 }]).Setup [] 0).2.2
      = [{ deadline := none, err := none }] ∧
    ¬ ((10 : Time) - tickBoundaryStory.pastStepTime > 10) ∧
    (tickBoundaryStory.TickHandler [{ deadline := none, err := none }] 10).1
      = Outcome.ret (GoError.timedOut "Your age:" 10) := by
  decide

/-- C6: `TickHandler` (whether or not it reports a timeout, and also when it
panics), `Cancel` and `Teardown` leave `Sequence` as it was; and an error
returned by `TickHandler` has the message
`Timed out while waiting for line "R": timeout D`, with `R` the `Read` text and
`D` the `Timeout` (as `time.Duration` prints it) of the step that is at the
front of `Sequence` afterwards. -/
theorem queue_kept (durationString : Duration → String)
    (q : QueueStory) (h : Ctxs) (now : Nat) :
    (q.TickHandler h now).2.1.Sequence = q.Sequence ∧
    (q.Cancel h now).2.1.Sequence = q.Sequence ∧
    (q.Teardown h now).1.Sequence = q.Sequence ∧
    (∀ e, e ≠ GoError.nil → (q.TickHandler h now).1 = Outcome.ret e →
      ∃ front rest, (q.TickHandler h now).2.1.Sequence = front :: rest ∧
        e.Error durationString =
          "Timed out while waiting for line \"" ++ front.Read ++ "\": timeout "
            ++ durationString front.Timeout) := by
  refine ⟨?_, ?_, ?_, ?_⟩
  · unfold QueueStory.TickHandler
    cases hs : q.Sequence with
    | nil => simp [hs]
    | cons st rest =>
      by_cases hz : st.Timeout = 0
      · simp [hz, hs]
      · by_cases hb : (now : Time) < q.pastStepTime + st.Timeout
        · simp [hz, hb, hs]
        · cases hc : q.ctx <;> simp [hz, hb, hc, hs]
  · cases hf : q.ctxCancelFunc <;> simp [QueueStory.Cancel, hf]
  · cases hf : q.ctxCancelFunc <;> simp [QueueStory.Teardown, hf]
  · intro e hne he
    unfold QueueStory.TickHandler at he ⊢
    cases hs : q.Sequence with
    | nil =>
      simp only [hs, Outcome.ret.injEq] at he
      exact absurd he.symm hne
    | cons st rest =>
      simp only [hs] at he ⊢
      by_cases hz : st.Timeout = 0
      · simp only [hz, if_true, Outcome.ret.injEq] at he
        exact absurd he.symm hne
      · by_cases hb : (now : Time) < q.pastStepTime + st.Timeout
        · simp only [hz, hb, if_true, if_false, Outcome.ret.injEq] at he
          exact absurd he.symm hne
        · cases hc : q.ctx with
          | none => simp [hz, hb, hc] at he
          | some c =>
            simp only [hz, hb, hc, if_false, Outcome.ret.injEq] at he
            refine ⟨st, rest, ?_, ?_⟩
            · simp [hz, hb, hs]
            · rw [← he]
              simp [hs, GoError.Error]

/-- C6 at a story whose front step has a timeout of 10ns, 20ns after `Setup`. -/
theorem queue_kept_witness :
    ∃ front rest,
      (tickBoundaryStory.TickHandler [{ deadline := none, err := none }] 20).2.1.Sequence
        = front :: rest ∧
      (GoError.timedOut "Your age:" 10).Error (fun _ => "10ns") =
        "Timed out while waiting for line \"" ++ front.Read ++ "\": timeout "
          ++ (fun _ => "10ns") front.Timeout :=
  (queue_kept (fun _ => "10ns") tickBoundaryStory [{ deadline := none, err := none }] 20).2.2.2
    (GoError.timedOut "Your age:" 10) (by decide) (by decide)

/-! ## The session driver -/

/-- C7: with `Start`, `Watch` and `Stop` as steps returning errors.  If `Start`
fails, `Run` returns the error of `Start` itself and the state `Start` left
(neither `Watch` nor `Stop` has acted).  Otherwise the final state is the one
`Stop` leaves when run once on the state `Watch` leaves, whatever `Watch`
returned; `Run` returns nil if and only if `Watch` and `Stop` both returned nil,
and otherwise returns `ExecutionError` with `RunError` the error of `Watch` and
`SigtermError` the error of `Stop` (each nil exactly when that call did not
fail). -/
theorem Run_spec {τ : Type} (Start Watch Stop : τ → GoError × τ) (t : τ) :
    ((Start t).1 ≠ GoError.nil →
      Terminal.Run Start Watch Stop t = ((Start t).1, (Start t).2)) ∧
    ((Start t).1 = GoError.nil →
      (Terminal.Run Start Watch Stop t).2 = (Stop (Watch (Start t).2).2).2 ∧
      ((Terminal.Run Start Watch Stop t).1 = GoError.nil ↔
        ((Watch (Start t).2).1 = GoError.nil ∧
         (Stop (Watch (Start t).2).2).1 = GoError.nil)) ∧
      (¬ ((Watch (Start t).2).1 = GoError.nil ∧
          (Stop (Watch (Start t).2).2).1 = GoError.nil) →
        (Terminal.Run Start Watch Stop t).1 =
          GoError.ExecutionError (Watch (Start t).2).1 (Stop (Watch (Start t).2).2).1)) := by
  refine ⟨?_, ?_⟩
  · intro hs
    simp [Terminal.Run, hs]
  · intro hs
    by_cases hb : (Watch (Start t).2).1 = GoError.nil ∧
        (Stop (Watch (Start t).2).2).1 = GoError.nil
    · simp [Terminal.Run, hs, hb]
    · simp [Terminal.Run, hs, hb]

/-- C7 with steps that record their calls: a failing `Start` is the only call
made, and after a `Start` that succeeds, a `Watch` that fails and a `Stop` that
succeeds, the calls are `Start`, `Watch`, `Stop` and the error has the error of
`Watch` as `RunError` and a nil `SigtermError`. -/
theorem Run_spec_witness :
    Terminal.Run (logged Call.Start (GoError.New "Already started"))
        (logged Call.Watch GoError.nil) (logged Call.Stop GoError.nil) []
      = (GoError.New "Already started", [Call.Start]) ∧
    (Terminal.Run (logged Call.Start GoError.nil)
        (logged Call.Watch GoError.DeadlineExceeded) (logged Call.Stop GoError.nil) []).2
      = [Call.Start, Call.Watch, Call.Stop] ∧
    (Terminal.Run (logged Call.Start GoError.nil)
        (logged Call.Watch GoError.DeadlineExceeded) (logged Call.Stop GoError.nil) []).1
      = GoError.ExecutionError GoError.DeadlineExceeded GoError.nil :=
  ⟨(Run_spec (logged Call.Start (GoError.New "Already started"))
      (logged Call.Watch GoError.nil) (logged Call.Stop GoError.nil) []).1 (by decide),
   ((Run_spec (logged Call.Start GoError.nil)
      (logged Call.Watch GoError.DeadlineExceeded) (logged Call.Stop GoError.nil) []).2
      rfl).1,
   ((Run_spec (logged Call.Start GoError.nil)
      (logged Call.Watch GoError.DeadlineExceeded) (logged Call.Stop GoError.nil) []).2
      rfl).2.2 (by decide)⟩

/-- C8: for a non-empty line on which the story's `HandleLine` returns
`(inp, err)`: the driver makes one write, of `inp` followed by a newline, if
`err` is nil, and no write otherwise; the story is left as `HandleLine` left it;
on `SkipWrite` and `SkipZeroMatches` no error is returned; on a nil `err` the
result of the write is returned (so a failed write is returned as the error);
any other `err` is returned as it is.  For an empty line the story and the
terminal are untouched (`HandleLine` is not called) and no error is returned. -/
theorem handleLine_spec {σ : Type} (s : Story σ) (line : String) (writeErr : GoError)
    (st : σ) (calls : List PtyCall) :
    (line.length ≠ 0 → ∀ (inp : String) (err : GoError) (st1 : σ),
      s.HandleLine line st = (Outcome.ret (inp, err), st1) →
      (Terminal.handleLine s line writeErr st calls).2.2 =
        (if err = GoError.nil then calls ++ [PtyCall.WriteString (inp ++ "\n")] else calls) ∧
      (Terminal.handleLine s line writeErr st calls).2.1 = st1 ∧
      (err = GoError.SkipWrite ∨ err = GoError.SkipZeroMatches →
        (Terminal.handleLine s line writeErr st calls).1 = Outcome.ret (false, GoError.nil)) ∧
      (err = GoError.nil →
        (Terminal.handleLine s line writeErr st calls).1 = Outcome.ret (false, writeErr)) ∧
      (err ≠ GoError.nil → err ≠ GoError.SkipWrite → err ≠ GoError.SkipZeroMatches →
        (Terminal.handleLine s line writeErr st calls).1 = Outcome.ret (false, err))) ∧
    (line.length = 0 →
      Terminal.handleLine s line writeErr st calls
        = (Outcome.ret (false, GoError.nil), st, calls)) := by
  refine ⟨?_, ?_⟩
  · intro hl inp err st1 hh
    unfold Terminal.handleLine
    simp only [hl, ne_eq, not_false_eq_true, if_true, hh]
    by_cases h1 : err = GoError.SkipWrite ∨ err = GoError.SkipZeroMatches
    · have h2 : err ≠ GoError.nil := by
        rcases h1 with h1 | h1 <;> simp [h1]
      refine ⟨by simp [h1, h2], by simp [h1, h2], by simp [h1, h2],
        fun h => absurd h h2, ?_⟩
      intro _ h3 h4
      rcases h1 with h1 | h1
      · exact absurd h1 h3
      · exact absurd h1 h4
    · by_cases h2 : err = GoError.nil
      · subst h2
        by_cases h3 : writeErr = GoError.nil <;> simp [Terminal.WriteLine, h3]
      · have h3 : err ≠ GoError.SkipWrite := fun h => h1 (Or.inl h)
        have h4 : err ≠ GoError.SkipZeroMatches := fun h => h1 (Or.inr h)
        simp [h1, h2]
  · intro hl
    simp [Terminal.handleLine, hl]

/-- C8 at the faulty mock of the tests: its error comes back unchanged and
nothing is written; on an empty line its `HandleLine` is not called (the count
of calls stays 0). -/
theorem handleLine_spec_witness :
    (Terminal.handleLine faultyMock "Starting\n" GoError.nil 0 []).1
      = Outcome.ret (false, GoError.New "Faulty mock") ∧
    (Terminal.handleLine faultyMock "Starting\n" GoError.nil 0 []).2.2 = [] ∧
    Terminal.handleLine faultyMock "" GoError.nil 0 []
      = (Outcome.ret (false, GoError.nil), 0, []) :=
  ⟨((handleLine_spec faultyMock "Starting\n" GoError.nil 0 []).1 (by decide)
      "" (GoError.New "Faulty mock") 1 rfl).2.2.2.2 (by decide) (by decide) (by decide),
   ((handleLine_spec faultyMock "Starting\n" GoError.nil 0 []).1 (by decide)
      "" (GoError.New "Faulty mock") 1 rfl).1,
   (handleLine_spec faultyMock "" GoError.nil 0 []).2 (by decide)⟩

/-- C9: `Setup` on a story on which it has not run succeeds and returns a
context; after it, whatever calls follow (`Add`, `HandleLine`, `Cancel`,
`Teardown`, `TickHandler` with or without a step timeout, further `Setup`s) and
whatever time passes, `Setup` returns `(nil, errAlreadyInitialized)` and leaves
the story and the context objects exactly as they were, and `Watch` on the story
returns `errAlreadyInitialized` without changing a field of the story. -/
theorem Setup_only_once (w0 : World) (ops : List Op) (w : World)
    (loop : Option Context → World → Outcome GoError × World)
    (h0 : w0.q.ctx = none) (hrun : w0.run (Op.Setup :: ops) = some w) :
    (w0.q.Setup w0.ctxs w0.now).1.2 = GoError.nil ∧
    (w0.q.Setup w0.ctxs w0.now).1.1.isSome = true ∧
    w.q.Setup w.ctxs w.now = ((none, GoError.errAlreadyInitialized), w.q, w.ctxs) ∧
    (Terminal.Watch QueueStory.story loop w).1 = Outcome.ret GoError.errAlreadyInitialized ∧
    (Terminal.Watch QueueStory.story loop w).2.q = w.q := by
  obtain ⟨s1, s2, _⟩ := Setup_fresh w0.q w0.ctxs w0.now h0
  have hctx : w.q.ctx.isSome = true :=
    (run_ctx_isSome (Op.Setup :: ops) w0 w hrun).mpr (Or.inr (List.mem_cons_self _ _))
  obtain ⟨c, hc⟩ := Option.isSome_iff_exists.mp hctx
  have hsetup : w.q.Setup w.ctxs w.now = ((none, GoError.errAlreadyInitialized), w.q, w.ctxs) := by
    simp [QueueStory.Setup, hc]
  refine ⟨s1, s2, hsetup, ?_, ?_⟩
  · simp [Terminal.Watch, QueueStory.story, hsetup]
  · cases hf : w.q.ctxCancelFunc <;>
      simp [Terminal.Watch, QueueStory.story, hsetup, QueueStory.Teardown, hf]

/-- C9 at the state the run of `TestStoryHandleLineAndTeardown` ends in: a
step matched, then `Teardown`. -/
theorem Setup_only_once_witness :
    teardownTestFinal.q.Setup teardownTestFinal.ctxs teardownTestFinal.now
      = ((none, GoError.errAlreadyInitialized), teardownTestFinal.q, teardownTestFinal.ctxs) ∧
    (Terminal.Watch QueueStory.story (fun _ w => (Outcome.ret GoError.nil, w))
      teardownTestFinal).1 = Outcome.ret GoError.errAlreadyInitialized :=
  have h := Setup_only_once teardownTestWorld teardownTestOps.tail teardownTestFinal
    (fun _ w => (Outcome.ret GoError.nil, w)) rfl (by decide)
  ⟨h.2.2.1, h.2.2.2.1⟩

theorem after_terminal (t : Terminal) (ev : TermEvent) :
    (t.after ev).terminal = t.terminal := by
  cases ev with
  | Stop writeErr closeErr =>
    simp only [Terminal.after, Terminal.Stop]
    cases t.processState with
    | none => by_cases hw : writeErr = GoError.nil <;> simp [hw]
    | some ps => rfl
  | exited ps => rfl
  | output data => rfl
  | copyEnded err => rfl

theorem foldl_after_terminal (evs : List TermEvent) :
    ∀ t : Terminal, (evs.foldl Terminal.after t).terminal = t.terminal := by
  induction evs with
  | nil => intro t; rfl
  | cons ev evs ih =>
    intro t
    simp only [List.foldl_cons]
    rw [ih, after_terminal]

theorem Start_of_none (t : Terminal) (ch : Nat) (pty : Option File × GoError)
    (hn : t.terminal = none) :
    (t.Start ch pty).1 = pty.2 ∧ (t.Start ch pty).2.end_ = some ch ∧
    (t.Start ch pty).2.terminal = pty.1 := by
  by_cases hp : pty.2 = GoError.nil <;> simp [Terminal.Start, hn, hp]

/-- C10, as the code has it, with the platform start either yielding a handle
and no error or failing with an error and no handle.  `Start` on a terminal
that holds a handle fails with the error "Already started" and changes no field
(the handle, the buffer and the end channel stay).  A terminal holds a handle
from its first successful `Start` on: after a `Start` that succeeded on a
terminal never started, and whatever `Stop` calls, process exit and output
followed, every later `Start` fails so.  After a `Start` that failed, and
whatever followed, no handle is held, and the next `Start` makes a new end
channel, takes whatever handle the platform start yields and returns the error
of the platform start, not "Already started". -/
theorem Start_twice (t : Terminal) (newChan : Nat) (pty : Option File × GoError) :
    (t.terminal ≠ none →
      t.Start newChan pty = (GoError.New "Already started", t)) ∧
    (t.terminal = none → ∀ (f : File) (ch : Nat) (evs : List TermEvent),
      (t.Start ch (some f, GoError.nil)).1 = GoError.nil ∧
      (evs.foldl Terminal.after (t.Start ch (some f, GoError.nil)).2).Start newChan pty
        = (GoError.New "Already started",
           evs.foldl Terminal.after (t.Start ch (some f, GoError.nil)).2)) ∧
    (t.terminal = none → ∀ (e : GoError) (ch : Nat) (evs : List TermEvent),
      e ≠ GoError.nil →
      (t.Start ch (none, e)).1 = e ∧
      (evs.foldl Terminal.after (t.Start ch (none, e)).2).terminal = none ∧
      ((evs.foldl Terminal.after (t.Start ch (none, e)).2).Start newChan pty).1 = pty.2 ∧
      ((evs.foldl Terminal.after (t.Start ch (none, e)).2).Start newChan pty).2.end_
        = some newChan ∧
      ((evs.foldl Terminal.after (t.Start ch (none, e)).2).Start newChan pty).2.terminal
        = pty.1) := by
  have key : ∀ t1 : Terminal, t1.terminal ≠ none →
      t1.Start newChan pty = (GoError.New "Already started", t1) := by
    intro t1 h1
    obtain ⟨f, hf⟩ := Option.ne_none_iff_exists'.mp h1
    simp [Terminal.Start, hf]
  refine ⟨key t, ?_, ?_⟩
  · intro hn f ch evs
    refine ⟨by simp [Terminal.Start, hn], ?_⟩
    apply key
    rw [foldl_after_terminal]
    simp [Terminal.Start, hn]
  · intro hn e ch evs he
    have h1 := Start_of_none t ch (none, e) hn
    have hnone : (evs.foldl Terminal.after (t.Start ch (none, e)).2).terminal = none := by
      rw [foldl_after_terminal]
      exact h1.2.2
    have h2 := Start_of_none _ newChan pty hnone
    exact ⟨h1.1, hnone, h2.1, h2.2.1, h2.2.2⟩

/-- C10 as amended, at a terminal that was started, stopped with its process
still running, and started again; and at a terminal whose first `Start` failed
and whose second `Start` is given a handle by the platform. -/
theorem Start_twice_witness :
    ((((Terminal.zero "mocks/mock.sh").Start 0 (some ⟨3⟩, GoError.nil)).2.after
        (TermEvent.Stop GoError.nil GoError.nil)).Start 1 (some ⟨4⟩, GoError.nil)
      = (GoError.New "Already started",
         ((Terminal.zero "mocks/mock.sh").Start 0 (some ⟨3⟩, GoError.nil)).2.after
           (TermEvent.Stop GoError.nil GoError.nil))) ∧
    ((((Terminal.zero "mocks/mock.sh").Start 0 (none, GoError.New "no such file")).2.Start 1
        (some ⟨4⟩, GoError.nil)).1 = GoError.nil) :=
  ⟨((Start_twice (Terminal.zero "mocks/mock.sh") 1 (some ⟨4⟩, GoError.nil)).2.1 rfl
      ⟨3⟩ 0 [TermEvent.Stop GoError.nil GoError.nil]).2,
   ((Start_twice (Terminal.zero "mocks/mock.sh") 1 (some ⟨4⟩, GoError.nil)).2.2 rfl
      (GoError.New "no such file") 0 [] (by decide)).2.2.1⟩

/-- C10 as stated fails: the first `Start` fails (the platform start returns an
error and no handle), and the second `Start` on the same terminal, for which
the platform start succeeds, returns nil instead of "Already started" and
replaces the end channel, the handle and the buffer. -/
theorem Start_after_failed_Start :
    ((Terminal.zero "mocks/mock.sh").Start 0 (none, GoError.New "no such file")).1
      = GoError.New "no such file" ∧
    (((Terminal.zero "mocks/mock.sh").Start 0 (none, GoError.New "no such file")).2.Start 1
        (some ⟨3⟩, GoError.nil)).1 = GoError.nil ∧
    ((Terminal.zero "mocks/mock.sh").Start 0 (none, GoError.New "no such file")).2.end_
      = some 0 ∧
    (((Terminal.zero "mocks/mock.sh").Start 0 (none, GoError.New "no such file")).2.Start 1
        (some ⟨3⟩, GoError.nil)).2
      = { Terminal.zero "mocks/mock.sh" with
            end_ := some 1, terminal := some ⟨3⟩, bfs := some "" } := by
  decide

/-! ## readLine and the message of ExecutionError -/

theorem span_at_delim (d : Char) (post : List Char) :
    ∀ pre : List Char, d ∉ pre →
      (pre ++ d :: post).span (fun c => c != d) = (pre, d :: post) := by
  intro pre
  induction pre with
  | nil => intro _; simp [List.span_eq_take_drop]
  | cons a pre ih =>
    intro hd
    have ha : a ≠ d := fun h => hd (by simp [h])
    have hp : d ∉ pre := fun h => hd (List.mem_cons_of_mem _ h)
    have := ih hp
    simp only [List.span_eq_take_drop, Prod.mk.injEq] at this ⊢
    simp [ha, this.1, this.2]

theorem span_without_delim (d : Char) :
    ∀ l : List Char, d ∉ l → l.span (fun c => c != d) = (l, []) := by
  intro l
  induction l with
  | nil => intro _; simp [List.span_eq_take_drop]
  | cons a l ih =>
    intro hd
    have ha : a ≠ d := fun h => hd (by simp [h])
    have hp : d ∉ l := fun h => hd (List.mem_cons_of_mem _ h)
    have := ih hp
    simp only [List.span_eq_take_drop, Prod.mk.injEq] at this ⊢
    simp [ha, this.1, this.2]

theorem ReadString_line (content : String) (d : Char) (pre post : List Char)
    (hc : content.data = pre ++ d :: post) (hd : d ∉ pre) :
    ReadString content d = ((String.mk (pre ++ [d]), GoError.nil), String.mk post) := by
  unfold ReadString
  rw [hc, span_at_delim d post pre hd]

theorem ReadString_rest (content : String) (d : Char) (hd : d ∉ content.data) :
    ReadString content d = ((content, EOF), "") := by
  unfold ReadString
  rw [span_without_delim d content.data hd]

/-- C11, as the code has it: at a poll with the process not yet exited and a
`TickHandler` that reports nothing, if the content of the buffer has a newline,
the line `handleLine` gets is the bytes up to and including the first newline,
and exactly those bytes are removed from the buffer; if the content has no
newline, `handleLine` gets the whole content and the buffer is emptied; so only
for an empty buffer is no line handed to the story. -/
theorem readLine_line {σ : Type} (t : Terminal) (s : Story σ) (writeErr : GoError)
    (st st1 : σ) (calls : List PtyCall) (content : String)
    (hps : t.processState = none) (hb : t.bfs = some content)
    (htick : s.TickHandler st = (Outcome.ret GoError.nil, st1)) :
    (∀ pre post : List Char, content.data = pre ++ '\n' :: post → '\n' ∉ pre →
      t.readLine s writeErr st calls =
        ((Terminal.handleLine s (String.mk (pre ++ ['\n'])) writeErr st1 calls).1,
         { t with bfs := some (String.mk post) },
         (Terminal.handleLine s (String.mk (pre ++ ['\n'])) writeErr st1 calls).2.1,
         (Terminal.handleLine s (String.mk (pre ++ ['\n'])) writeErr st1 calls).2.2)) ∧
    ('\n' ∉ content.data →
      t.readLine s writeErr st calls =
        ((Terminal.handleLine s content writeErr st1 calls).1,
         { t with bfs := some "" },
         (Terminal.handleLine s content writeErr st1 calls).2.1,
         (Terminal.handleLine s content writeErr st1 calls).2.2)) ∧
    (content = "" →
      t.readLine s writeErr st calls =
        (Outcome.ret (false, GoError.nil), { t with bfs := some "" }, st1, calls)) := by
  have hsecond : '\n' ∉ content.data →
      t.readLine s writeErr st calls =
        ((Terminal.handleLine s content writeErr st1 calls).1,
         { t with bfs := some "" },
         (Terminal.handleLine s content writeErr st1 calls).2.1,
         (Terminal.handleLine s content writeErr st1 calls).2.2) := by
    intro hd
    simp [Terminal.readLine, hps, hb, ReadString_rest content '\n' hd, htick, EOF]
  refine ⟨?_, hsecond, ?_⟩
  · intro pre post hc hd
    simp [Terminal.readLine, hps, hb, ReadString_line content '\n' pre post hc hd, htick]
  · intro he
    subst he
    rw [hsecond (by simp)]
    simp [Terminal.handleLine]

/-- C11 as amended, at a prompt that has no newline yet: it is handed to the
story and leaves the buffer. -/
theorem readLine_line_witness :
    (polled "Your name: ").readLine recorder GoError.nil [] []
      = (Outcome.ret (false, GoError.nil), polled "", ["Your name: "], []) :=
  ((readLine_line (polled "Your name: ") recorder GoError.nil [] [] [] "Your name: "
      rfl rfl rfl).2.1 (by decide)).trans (by decide)

/-- C11 as stated fails: with `"Starting\nYour"` in the buffer the line handed
to the story is `"Starting\n"`, newline included, not `"Starting"`; and with
the newline-free `"Your name: "` in the buffer that text is handed to the story
as a line and the buffer is left empty, not unchanged. -/
theorem readLine_keeps_newline_and_drains :
    (polled "Starting\nYour").readLine recorder GoError.nil [] []
      = (Outcome.ret (false, GoError.nil), polled "Your", ["Starting\n"], []) ∧
    "Starting\n" ≠ "Starting" ∧
    (polled "Your name: ").readLine recorder GoError.nil [] []
      = (Outcome.ret (false, GoError.nil), polled "", ["Your name: "], []) ∧
    polled "" ≠ polled "Your name: " := by
  decide

theorem intercalate_one (sep a : String) : sep.intercalate [a] = a := by
  simp [String.intercalate, String.intercalate.go]

theorem intercalate_two (sep a b : String) : sep.intercalate [a, b] = a ++ sep ++ b := by
  simp [String.intercalate, String.intercalate.go]

/-- C12: the message of an `ExecutionError`: with only `RunError` non-nil it is
"Run error: " followed by the message of `RunError`; with only `SigtermError`
non-nil it is "SIGTERM signal error: " followed by the message of
`SigtermError`; with both non-nil it is the run part, "; " and the SIGTERM
part; with both nil it is the empty string. -/
theorem ExecutionError_Error (durationString : Duration → String) (r s : GoError) :
    (r ≠ GoError.nil → s = GoError.nil →
      (GoError.ExecutionError r s).Error durationString
        = "Run error: " ++ r.Error durationString) ∧
    (r = GoError.nil → s ≠ GoError.nil →
      (GoError.ExecutionError r s).Error durationString
        = "SIGTERM signal error: " ++ s.Error durationString) ∧
    (r ≠ GoError.nil → s ≠ GoError.nil →
      (GoError.ExecutionError r s).Error durationString
        = "Run error: " ++ r.Error durationString ++ "; "
            ++ ("SIGTERM signal error: " ++ s.Error durationString)) ∧
    (r = GoError.nil → s = GoError.nil →
      (GoError.ExecutionError r s).Error durationString = "") := by
  refine ⟨?_, ?_, ?_, ?_⟩
  · intro hr hs
    simp only [GoError.Error, hr, hs, ne_eq, not_false_eq_true, not_true_eq_false,
      if_true, if_false]
    exact intercalate_one _ _
  · intro hr hs
    simp only [GoError.Error, hr, hs, ne_eq, not_false_eq_true, not_true_eq_false,
      if_true, if_false, List.nil_append]
    exact intercalate_one _ _
  · intro hr hs
    simp only [GoError.Error, hr, hs, ne_eq, not_false_eq_true, if_true,
      List.singleton_append]
    exact intercalate_two _ _ _
  · intro hr hs
    simp [GoError.Error, hr, hs, String.intercalate]

/-- C12 at the error of `TestTerminalWithStoryTimeout`. -/
theorem ExecutionError_Error_witness :
    (GoError.ExecutionError GoError.DeadlineExceeded GoError.nil).Error (fun _ => "")
      = "Run error: context deadline exceeded" :=
  ((ExecutionError_Error (fun _ => "") GoError.DeadlineExceeded GoError.nil).1
    (by decide) rfl).trans (by decide)

/-! ## Cancel, Teardown and the terminated story -/

theorem Err_later (h : Ctxs) (c : Context) (now later : Nat) (hle : now ≤ later)
    (hd : c.Err h now ≠ none) : c.Err h later ≠ none := by
  cases c with
  | Background => simp [Context.Err] at hd
  | obj i =>
    simp only [Context.Err] at hd ⊢
    cases hi : h[i]? with
    | none => simp [hi] at hd
    | some o =>
      simp only [hi] at hd ⊢
      cases he : o.err with
      | some e => simp
      | none =>
        simp only [he] at hd ⊢
        cases hdl : o.deadline with
        | none => simp [hdl] at hd
        | some d0 =>
          simp only [hdl] at hd ⊢
          by_cases hlt : d0 ≤ (now : Time)
          · have hlt2 : d0 ≤ (later : Time) :=
              Int.le_trans hlt (Int.ofNat_le.mpr hle)
            simp [hlt2]
          · simp [hlt] at hd

theorem call_keeps_done (f : CancelFunc) (h : Ctxs) (c : Context) (now : Nat)
    (hd : c.Err h now ≠ none) : c.Err (f.call h now) now ≠ none := by
  unfold CancelFunc.call
  cases hf : h[f.id]? with
  | none => simpa using hd
  | some o =>
    simp only []
    cases hE : (Context.obj f.id).Err h now with
    | some e => simpa using hd
    | none =>
      simp only []
      cases c with
      | Background => simp [Context.Err] at hd
      | obj i =>
        by_cases hij : f.id = i
        · subst hij
          exact absurd hE hd
        · simpa [Context.Err, List.getElem?_set_ne hij] using hd

theorem call_makes_done (f : CancelFunc) (h : Ctxs) (now : Nat) (o : CtxObj)
    (ho : h[f.id]? = some o) : (Context.obj f.id).Err (f.call h now) now ≠ none := by
  cases hE : (Context.obj f.id).Err h now with
  | some e =>
    apply call_keeps_done
    simp [hE]
  | none =>
    have hlt : f.id < h.length := by
      by_contra hge
      have : h[f.id]? = none := List.getElem?_eq_none (Nat.le_of_not_lt hge)
      simp [this] at ho
    have hcall : f.call h now = h.set f.id { o with err := some CtxErr.Canceled } := by
      unfold CancelFunc.call
      rw [ho]
      simp only []
      rw [hE]
    rw [hcall]
    simp [Context.Err, List.getElem?_set_self, hlt]

theorem call_when_done (f : CancelFunc) (h : Ctxs) (now : Nat)
    (hd : (Context.obj f.id).Err h now ≠ none) : f.call h now = h := by
  unfold CancelFunc.call
  cases hf : h[f.id]? with
  | none => rfl
  | some o =>
    simp only []
    cases hE : (Context.obj f.id).Err h now with
    | some e => rfl
    | none => exact absurd hE hd

theorem Err_new (h : Ctxs) (o : CtxObj) (now : Nat) (he : o.err ≠ none) :
    (Context.obj h.length).Err (h ++ [o]) now ≠ none := by
  simp only [Context.Err, List.getElem?_concat_length]
  cases ho : o.err with
  | none => exact absurd ho he
  | some e => simp

theorem WithDeadline_of_done (h : Ctxs) (now : Nat) (parent : Context) (d : Time)
    (hd : parent.Err h now ≠ none) :
    (WithDeadline h now parent d).1.1.Err (WithDeadline h now parent d).2 now ≠ none := by
  obtain ⟨e, he⟩ := Option.ne_none_iff_exists'.mp hd
  unfold WithDeadline
  cases hdl : parent.Deadline h with
  | none =>
    simp only []
    apply Err_new
    simp [he]
  | some cur =>
    simp only []
    by_cases hlt : cur < d
    · simp only [hlt, if_true, WithCancel]
      apply Err_new
      simp [he]
    · simp only [hlt, if_false]
      apply Err_new
      simp [he]

theorem HandleLine_ctx (q : QueueStory) (s : String) (now : Nat) :
    (q.HandleLine s now).2.ctx = q.ctx ∧
    (q.HandleLine s now).2.ctxCancelFunc = q.ctxCancelFunc := by
  unfold QueueStory.HandleLine
  cases hs : q.Sequence with
  | nil => simp
  | cons st rest =>
    by_cases hm : similar s st.Read = true
    · cases hw : st.SkipWrite <;> simp [QueueStory.shift, hs, hm, hw]
    · simp [hm]

theorem exec_terminated (w : World) (op : Op) (ht : w.terminated) :
    ∃ w1, w.exec op = some w1 ∧ w1.terminated := by
  obtain ⟨c, f, hc, hf, hd⟩ := ht
  cases op with
  | Add args =>
    exact ⟨_, rfl, c, f, by simp [QueueStory.Add, hc], by simp [QueueStory.Add, hf], hd⟩
  | Setup =>
    refine ⟨_, rfl, c, f, ?_, ?_, ?_⟩ <;> simp [QueueStory.Setup, hc, hf, hd]
  | Cancel =>
    refine ⟨{ w with ctxs := f.call w.ctxs w.now }, ?_, c, f, hc, hf, ?_⟩
    · simp [World.exec, QueueStory.Cancel, hf]
    · exact call_keeps_done f w.ctxs c w.now hd
  | Teardown =>
    refine ⟨{ w with ctxs := f.call w.ctxs w.now }, ?_, c, f, hc, hf, ?_⟩
    · simp [World.exec, QueueStory.Teardown, hf]
    · exact call_keeps_done f w.ctxs c w.now hd
  | TickHandler =>
    unfold World.exec QueueStory.TickHandler
    cases hs : w.q.Sequence with
    | nil => exact ⟨w, by simp, c, f, hc, hf, hd⟩
    | cons st rest =>
      simp only []
      by_cases hz : st.Timeout = 0
      · exact ⟨w, by simp [hz], c, f, hc, hf, hd⟩
      · by_cases hb : (w.now : Time) < w.q.pastStepTime + st.Timeout
        · exact ⟨w, by simp [hz, hb], c, f, hc, hf, hd⟩
        · simp only [hz, hb, hc, if_false]
          exact ⟨_, rfl, _, _, rfl, rfl, WithDeadline_of_done w.ctxs w.now c zeroTime hd⟩
  | HandleLine s =>
    refine ⟨_, rfl, c, f, ?_, ?_, hd⟩
    · simpa [hc] using (HandleLine_ctx w.q s w.now).1
    · simpa [hf] using (HandleLine_ctx w.q s w.now).2
  | sleep d =>
    exact ⟨_, rfl, c, f, hc, hf, Err_later w.ctxs c w.now (w.now + d) (Nat.le_add_right _ _) hd⟩

theorem run_terminated (ops : List Op) :
    ∀ w : World, w.terminated → ∃ w1, w.run ops = some w1 ∧ w1.terminated := by
  induction ops with
  | nil => intro w ht; exact ⟨w, rfl, ht⟩
  | cons op ops ih =>
    intro w ht
    obtain ⟨w1, h1, ht1⟩ := exec_terminated w op ht
    obtain ⟨w2, h2, ht2⟩ := ih w1 ht1
    exact ⟨w2, by simp [World.run, h1, h2], ht2⟩

theorem Setup_shape (q : QueueStory) (h : Ctxs) (now : Nat) (hctx : q.ctx = none) :
    ∃ i o, (q.Setup h now).2.1.ctx = some (Context.obj i) ∧
      (q.Setup h now).2.1.ctxCancelFunc = some ⟨i⟩ ∧
      (q.Setup h now).2.2[i]? = some o := by
  unfold QueueStory.Setup
  rw [hctx]
  by_cases hz : q.StepTimeout = 0
  · exact ⟨h.length, _, by simp [hz, WithCancel], by simp [hz, WithCancel],
      by simp only [hz, WithCancel]; exact List.getElem?_concat_length _ _⟩
  · simp only [hz, ne_eq, not_false_eq_true, if_true, WithTimeout, WithDeadline, WithCancel,
      Context.Deadline, List.getElem?_concat_length, Option.bind_some, Context.Err]
    exact ⟨h.length + 1, _, by simp, by simp,
      by
        have := List.getElem?_concat_length
          (h ++ [{ deadline := none, err := none }])
          ({ deadline := some ((now : Time) + q.StepTimeout),
             err := if (now : Time) + q.StepTimeout ≤ (now : Time)
                    then some CtxErr.DeadlineExceeded else none } : CtxObj)
        simpa using this⟩

theorem Cancel_Teardown_once_set_up (q : QueueStory) (h : Ctxs) (now later i : Nat)
    (o : CtxObj) (hf : q.ctxCancelFunc = some ⟨i⟩) (ho : h[i]? = some o)
    (hle : now ≤ later) :
    (q.Cancel h now).1 = Outcome.ret () ∧
    (q.Cancel h now).2.1 = q ∧
    (q.Teardown h now).1 = q ∧
    (Context.obj i).Err (q.Cancel h now).2.2 now ≠ none ∧
    (Context.obj i).Err (q.Teardown h now).2 now ≠ none ∧
    (q.Cancel (q.Cancel h now).2.2 later).2.2 = (q.Cancel h now).2.2 ∧
    (q.Teardown (q.Teardown h now).2 later).2 = (q.Teardown h now).2 := by
  have hdone : (Context.obj i).Err (CancelFunc.call ⟨i⟩ h now) now ≠ none :=
    call_makes_done ⟨i⟩ h now o ho
  have hlater : CancelFunc.call ⟨i⟩ (CancelFunc.call ⟨i⟩ h now) later
      = CancelFunc.call ⟨i⟩ h now :=
    call_when_done ⟨i⟩ _ later (Err_later _ _ now later hle hdone)
  simp only [QueueStory.Cancel, QueueStory.Teardown, hf]
  exact ⟨trivial, trivial, trivial, hdone, hdone, hlater, hlater⟩

/-- C13 at the failing input: on a story on which `Setup` has never run,
`Cancel` calls the nil `ctxCancelFunc` and panics, while `Teardown`, which
checks the function against nil, returns and changes nothing. -/
theorem Cancel_before_Setup_panics :
    (QueueStory.zero.Cancel [] 0).1 = Outcome.panic ∧
    unstartedWorld.exec Op.Cancel = none ∧
    QueueStory.zero.Teardown [] 0 = (QueueStory.zero, []) := by
  decide

theorem call_getElem (f : CancelFunc) (h : Ctxs) (now i : Nat) (o : CtxObj)
    (ho : h[i]? = some o) : ∃ o1, (f.call h now)[i]? = some o1 := by
  unfold CancelFunc.call
  cases hf : h[f.id]? with
  | none => exact ⟨o, ho⟩
  | some o2 =>
    simp only []
    cases hE : (Context.obj f.id).Err h now with
    | some e => exact ⟨o, ho⟩
    | none =>
      simp only []
      by_cases hij : f.id = i
      · have hlt : i < h.length := by
          by_contra hge
          have : h[i]? = none := List.getElem?_eq_none (Nat.le_of_not_lt hge)
          simp [this] at ho
        exact ⟨_, by rw [hij, List.getElem?_set_self hlt]⟩
      · exact ⟨o, by rw [List.getElem?_set_ne hij]; exact ho⟩

theorem WithDeadline_shape (h : Ctxs) (now : Nat) (parent : Context) (d : Time) :
    (WithDeadline h now parent d).1.1 = Context.obj h.length ∧
    (WithDeadline h now parent d).1.2 = ⟨h.length⟩ ∧
    ∃ o, (WithDeadline h now parent d).2[h.length]? = some o := by
  unfold WithDeadline
  cases hdl : parent.Deadline h with
  | none => exact ⟨rfl, rfl, _, List.getElem?_concat_length _ _⟩
  | some cur =>
    simp only []
    by_cases hlt : cur < d
    · rw [if_pos hlt]
      exact ⟨rfl, rfl, _, List.getElem?_concat_length _ _⟩
    · rw [if_neg hlt]
      exact ⟨rfl, rfl, _, List.getElem?_concat_length _ _⟩

theorem Err_of_passed_deadline (h : Ctxs) (now : Nat) (parent : Context) (cur : Time)
    (hdl : parent.Deadline h = some cur) (hcur : cur ≤ (now : Time)) :
    parent.Err h now ≠ none := by
  cases parent with
  | Background => simp [Context.Deadline] at hdl
  | obj i =>
    simp only [Context.Deadline] at hdl
    simp only [Context.Err]
    cases hi : h[i]? with
    | none => simp [hi] at hdl
    | some o =>
      simp only [hi, Option.some_bind] at hdl
      simp only []
      cases he : o.err with
      | some e => simp
      | none => simp [hdl, hcur]

theorem WithDeadline_zero_done (h : Ctxs) (now : Nat) (parent : Context) :
    (WithDeadline h now parent zeroTime).1.1.Err (WithDeadline h now parent zeroTime).2 now
      ≠ none := by
  have hnow : zeroTime ≤ (now : Time) := Int.ofNat_nonneg now
  by_cases hd : parent.Err h now = none
  · unfold WithDeadline
    cases hdl : parent.Deadline h with
    | none =>
      simp only []
      apply Err_new
      simp [hd, hnow]
    | some cur =>
      simp only []
      by_cases hlt : cur < zeroTime
      · exact absurd hd
          (Err_of_passed_deadline h now parent cur hdl (Int.le_trans (Int.le_of_lt hlt) hnow))
      · simp only [hlt, if_false]
        apply Err_new
        simp [hd, hnow]
  · exact WithDeadline_of_done h now parent zeroTime hd

theorem exec_setUp (w : World) (op : Op) (hs : w.setUp) :
    ∃ w1, w.exec op = some w1 ∧ w1.setUp := by
  obtain ⟨i, o, hc, hf, ho⟩ := hs
  cases op with
  | Add args =>
    exact ⟨_, rfl, i, o, by simp [QueueStory.Add, hc], by simp [QueueStory.Add, hf], ho⟩
  | Setup =>
    refine ⟨_, rfl, i, o, ?_, ?_, ?_⟩ <;> simp [QueueStory.Setup, hc, hf, ho]
  | Cancel =>
    obtain ⟨o1, ho1⟩ := call_getElem ⟨i⟩ w.ctxs w.now i o ho
    refine ⟨{ w with ctxs := CancelFunc.call ⟨i⟩ w.ctxs w.now }, ?_, i, o1, hc, hf, ho1⟩
    simp [World.exec, QueueStory.Cancel, hf]
  | Teardown =>
    obtain ⟨o1, ho1⟩ := call_getElem ⟨i⟩ w.ctxs w.now i o ho
    refine ⟨{ w with ctxs := CancelFunc.call ⟨i⟩ w.ctxs w.now }, ?_, i, o1, hc, hf, ho1⟩
    simp [World.exec, QueueStory.Teardown, hf]
  | TickHandler =>
    unfold World.exec QueueStory.TickHandler
    cases hsq : w.q.Sequence with
    | nil => exact ⟨w, by simp, i, o, hc, hf, ho⟩
    | cons st rest =>
      simp only []
      by_cases hz : st.Timeout = 0
      · exact ⟨w, by simp [hz], i, o, hc, hf, ho⟩
      · by_cases hb : (w.now : Time) < w.q.pastStepTime + st.Timeout
        · exact ⟨w, by simp [hz, hb], i, o, hc, hf, ho⟩
        · simp only [hz, hb, hc, if_false]
          obtain ⟨s1, s2, o1, s3⟩ := WithDeadline_shape w.ctxs w.now (Context.obj i) zeroTime
          exact ⟨_, rfl, w.ctxs.length, o1, by simp [s1], by simp [s2], s3⟩
  | HandleLine s =>
    refine ⟨_, rfl, i, o, ?_, ?_, ho⟩
    · simpa [hc] using (HandleLine_ctx w.q s w.now).1
    · simpa [hf] using (HandleLine_ctx w.q s w.now).2
  | sleep d => exact ⟨_, rfl, i, o, hc, hf, ho⟩

theorem run_setUp (ops : List Op) :
    ∀ w : World, w.setUp → ∃ w1, w.run ops = some w1 ∧ w1.setUp := by
  induction ops with
  | nil => intro w hs; exact ⟨w, rfl, hs⟩
  | cons op ops ih =>
    intro w hs
    obtain ⟨w1, h1, hs1⟩ := exec_setUp w op hs
    obtain ⟨w2, h2, hs2⟩ := ih w1 hs1
    exact ⟨w2, by simp [World.run, h1, h2], hs2⟩

theorem run_after_Setup_setUp (w0 : World) (ops : List Op) (w : World)
    (h0 : w0.q.ctx = none) (hrun : w0.run (Op.Setup :: ops) = some w) : w.setUp := by
  obtain ⟨i, o, s1, s2, s3⟩ := Setup_shape w0.q w0.ctxs w0.now h0
  have hs : World.setUp { w0 with q := (w0.q.Setup w0.ctxs w0.now).2.1,
                                  ctxs := (w0.q.Setup w0.ctxs w0.now).2.2 } :=
    ⟨i, o, s1, s2, s3⟩
  obtain ⟨w1, h1, hs1⟩ := run_setUp ops _ hs
  simp only [World.run, World.exec, Option.some_bind] at hrun
  rw [h1] at hrun
  cases hrun
  exact hs1

theorem cancel_terminates (w : World) (hs : w.setUp) :
    (∃ w1, w.exec Op.Cancel = some w1 ∧ w1.terminated) ∧
    (∃ w1, w.exec Op.Teardown = some w1 ∧ w1.terminated) := by
  obtain ⟨i, o, hc, hf, ho⟩ := hs
  have hdone := call_makes_done ⟨i⟩ w.ctxs w.now o ho
  constructor
  · refine ⟨{ w with ctxs := CancelFunc.call ⟨i⟩ w.ctxs w.now }, ?_, _, _, hc, hf, hdone⟩
    simp [World.exec, QueueStory.Cancel, hf]
  · refine ⟨{ w with ctxs := CancelFunc.call ⟨i⟩ w.ctxs w.now }, ?_, _, _, hc, hf, hdone⟩
    simp [World.exec, QueueStory.Teardown, hf]

theorem timeout_terminates (w : World) (hs : w.setUp) (e : GoError)
    (hne : e ≠ GoError.nil) (he : (w.q.TickHandler w.ctxs w.now).1 = Outcome.ret e) :
    ∃ w1, w.exec Op.TickHandler = some w1 ∧ w1.terminated := by
  obtain ⟨i, o, hc, hf, ho⟩ := hs
  unfold World.exec
  unfold QueueStory.TickHandler at he ⊢
  cases hsq : w.q.Sequence with
  | nil =>
    simp only [hsq, Outcome.ret.injEq] at he
    exact absurd he.symm hne
  | cons st rest =>
    simp only [hsq] at he ⊢
    by_cases hz : st.Timeout = 0
    · simp only [hz, if_true, Outcome.ret.injEq] at he
      exact absurd he.symm hne
    · by_cases hb : (w.now : Time) < w.q.pastStepTime + st.Timeout
      · simp only [hz, hb, if_true, if_false, Outcome.ret.injEq] at he
        exact absurd he.symm hne
      · simp only [hz, hb, hc, if_false]
        exact ⟨_, rfl, _, _, rfl, rfl,
          WithDeadline_zero_done w.ctxs w.now (Context.obj i)⟩

/-- C14, as the code has it.  In every state `w` reached after `Setup`:
`Cancel` and `Teardown` return and leave the story terminated (its context is
done), and a `TickHandler` that reports a step timeout leaves it terminated.
Once a story is terminated it stays so through every later call (`Add`,
`Setup`, `Cancel`, `Teardown`, `TickHandler`, `HandleLine`) and through the
passing of time, and none of these calls panics.  `HandleLine` does not look at
the context: on a line that matches the front step of a terminated story it
removes that step and, when the step is not `SkipWrite`, returns its `Write`
with a nil error, as on a running story. -/
theorem terminated_never_resumes (w0 : World) (pre : List Op) (w : World)
    (ops : List Op) (h0 : w0.q.ctx = none)
    (hrun : w0.run (Op.Setup :: pre) = some w) :
    (∃ w1, w.exec Op.Cancel = some w1 ∧ w1.terminated) ∧
    (∃ w1, w.exec Op.Teardown = some w1 ∧ w1.terminated) ∧
    (∀ e, e ≠ GoError.nil → (w.q.TickHandler w.ctxs w.now).1 = Outcome.ret e →
      ∃ w1, w.exec Op.TickHandler = some w1 ∧ w1.terminated) ∧
    (∀ w1 : World, w1.terminated →
      (∃ w2, w1.run ops = some w2 ∧ w2.terminated) ∧
      (∀ (front : Step) (rest : List Step) (s : String),
        w1.q.Sequence = front :: rest → TrimSpace s = TrimSpace front.Read →
        (w1.q.HandleLine s w1.now).2.Sequence = rest ∧
        (front.SkipWrite = false →
          (w1.q.HandleLine s w1.now).1 = (front.Write, GoError.nil)))) := by
  have hs : w.setUp := run_after_Setup_setUp w0 pre w h0 hrun
  refine ⟨(cancel_terminates w hs).1, (cancel_terminates w hs).2,
    fun e hne he => timeout_terminates w hs e hne he, ?_⟩
  intro w1 ht
  refine ⟨run_terminated ops w1 ht, ?_⟩
  intro front rest s hseq hsim
  have h : similar s front.Read = true := (similar_iff s front.Read).mpr hsim
  cases hw : front.SkipWrite <;>
    simp [QueueStory.HandleLine, QueueStory.shift, hseq, h, hw]

/-- C14 as amended, at the story of `TestStoryCancel`: after `Setup`, `Cancel`
leaves it terminated, and once cancelled a later `TickHandler` and a later
`HandleLine` on the awaited line leave it terminated. -/
theorem terminated_never_resumes_witness :
    (∃ w1, setupTestFinal.exec Op.Cancel = some w1 ∧ w1.terminated) ∧
    (∃ w2, cancelTestFinal.run [Op.TickHandler, Op.HandleLine "Select from 1..2:"] = some w2 ∧
      w2.terminated) :=
  have h := terminated_never_resumes teardownTestWorld [] setupTestFinal
    [Op.TickHandler, Op.HandleLine "Select from 1..2:"] rfl (by decide)
  ⟨h.1, (h.2.2.2 cancelTestFinal ⟨Context.obj 1, ⟨1⟩, rfl, rfl, by decide⟩).1⟩

/-- C14 as stated fails: the story of `TestStoryCancel` is cancelled after
`Setup` and `Cancel` (its state is `cancelTestFinal`), and `HandleLine` on the
line that matches its front step still returns the response "2" with a nil
error and empties the queue; and a story whose step timeout `TickHandler` has
reported is timed out, and `HandleLine` on the awaited line does the same. -/
theorem HandleLine_after_termination :
    teardownTestWorld.run cancelTestOps = some cancelTestFinal ∧
    cancelTestFinal.cancelled = true ∧
    (cancelTestFinal.q.HandleLine "Select from 1..2:" cancelTestFinal.now).1
      = ("2", GoError.nil) ∧
    (cancelTestFinal.q.HandleLine "Select from 1..2:" cancelTestFinal.now).2.Sequence = [] ∧
    (stepTimeoutWorld.run timedOutOps).map
        (fun w => (w.timedOut, (w.q.HandleLine "Select from 1..2:" w.now).1,
                   (w.q.HandleLine "Select from 1..2:" w.now).2.Sequence))
      = some (true, ("2", GoError.nil), []) := by
  decide

end Pseudoterm
